import Mathlib

/-!
Shallow embedding of the VeloraPay backend ledger core
(`backend/server.py`): user accounts with wallet balances, wallet
top-ups, peer-to-peer transfers, and per-user transaction history.

Monetary amounts (Python floats in the source) are modelled as exact
rationals `Rat`.  MongoDB documents become Lean structures; the
`users` and `transactions` collections become lists (in insertion
order, matching Mongo natural order for these append-only workloads).
`str(ObjectId)` identifiers are modelled as `Nat` user ids; the
reserved `"system"` sender string used by top-ups is a separate
constructor of `PartyId`, which is faithful because ObjectId strings
are never the literal `"system"` and are pairwise distinct.
Timestamps (`datetime.utcnow()`) are supplied by the environment, so
each mutating operation takes the current time as an explicit `Nat`
argument.
-/

/-- A party appearing in a transaction record: either the reserved
`"system"` sentinel used as the sender of top-ups, or a real user
identified by id (`str(user["_id"])` in the source). -/
inductive PartyId
  | system
  | user (uid : Nat)
  deriving Repr, DecidableEq

/-- A document of the `users` collection (`server.py` register,
lines 122-129). -/
structure User where
  uid : Nat
  username : String
  password_hash : String
  full_name : String
  wallet_balance : Rat
  reputation_score : Rat
  created_at : Nat
  deriving Repr, DecidableEq

/-- A document of the `transactions` collection (`server.py`
lines 214-224 and 269-279). -/
structure Txn where
  from_user : PartyId
  from_user_name : String
  to_user : PartyId
  to_user_name : String
  amount : Rat
  note : String
  ty : String
  status : String
  timestamp : Nat
  deriving Repr, DecidableEq

/-- The database state: the `users` and `transactions` collections,
each in insertion order. -/
structure DB where
  users : List User
  transactions : List Txn
  deriving Repr, DecidableEq

/-- The error responses the endpoints can raise (`HTTPException`s of
`server.py`). -/
inductive ApiError
  | usernameExists
  | unauthorized
  | invalidAmount
  | insufficientBalance
  | recipientNotFound
  | selfTransfer
  deriving Repr, DecidableEq

/-- Mongo `db.users.find_one({"_id": uid})`: first user with the given
id. -/
def findUserById (db : DB) (uid : Nat) : Option User :=
  db.users.find? (fun u => u.uid == uid)

/-- Mongo `db.users.find_one({"username": name})`: first user with the
given username. -/
def findUserByUsername (db : DB) (name : String) : Option User :=
  db.users.find? (fun u => u.username == name)

/-- Mongo `db.users.update_one({"_id": uid}, {"$set": {"wallet_balance":
v}})`.  Ids are Mongo primary keys, hence unique, so setting every
matching document equals setting the one matching document. -/
def setWalletBalance (users : List User) (uid : Nat) (v : Rat) : List User :=
  users.map (fun u => if u.uid = uid then { u with wallet_balance := v } else u)

/-- The current wallet balance of the account with the given id, if it
exists. -/
def balanceOf (db : DB) (uid : Nat) : Option Rat :=
  (findUserById db uid).map (·.wallet_balance)

/-- Sum of all account balances. -/
def totalBalance (db : DB) : Rat :=
  (db.users.map (·.wallet_balance)).sum

/-- The `/auth/register` endpoint (`server.py` lines 113-149), ledger-
relevant part: reject when the username is taken, otherwise insert a
new user with starting balance 1000.0 and starting reputation 75.0.
Password hashing (bcrypt) is external, so the handler receives the
hash; the Mongo-assigned `_id` is received as `newUid`. -/
def register (db : DB) (username hashed_pwd full_name : String)
    (newUid : Nat) (ts : Nat) : Except ApiError (DB × User) :=
  match findUserByUsername db username with
  | some _ => .error .usernameExists
  | none =>
    let new_user : User :=
      { uid := newUid
        username := username
        password_hash := hashed_pwd
        full_name := full_name
        wallet_balance := 1000
        reputation_score := 75
        created_at := ts }
    .ok ({ db with users := db.users ++ [new_user] }, new_user)

/-- The transaction record created by a top-up (`server.py`
lines 214-224). -/
def mkTopupTxn (current_user : User) (amount : Rat) (ts : Nat) : Txn :=
  { from_user := .system
    from_user_name := "VeloraPay"
    to_user := .user current_user.uid
    to_user_name := current_user.full_name
    amount := amount
    note := "Wallet top-up"
    ty := "topup"
    status := "completed"
    timestamp := ts }

/-- The transaction record created by a transfer (`server.py`
lines 269-279). -/
def mkSendTxn (current_user recipient : User) (amount : Rat) (note : String)
    (ts : Nat) : Txn :=
  { from_user := .user current_user.uid
    from_user_name := current_user.full_name
    to_user := .user recipient.uid
    to_user_name := recipient.full_name
    amount := amount
    note := note
    ty := "send"
    status := "completed"
    timestamp := ts }

/-- The `/wallet/topup` endpoint (`server.py` lines 201-231).
`get_current_user` resolves the caller first (401 when absent); then
the amount is validated, the balance updated, and a completed top-up
record appended.  Returns the new balance. -/
def topup_wallet (db : DB) (callerUid : Nat) (amount : Rat) (ts : Nat) :
    Except ApiError (DB × Rat) :=
  match findUserById db callerUid with
  | none => .error .unauthorized
  | some current_user =>
    if amount ≤ 0 then .error .invalidAmount
    else
      let new_balance := current_user.wallet_balance + amount
      let users' := setWalletBalance db.users current_user.uid new_balance
      .ok ({ users := users',
             transactions := db.transactions ++ [mkTopupTxn current_user amount ts] },
           new_balance)

/-- The `/transaction/send` endpoint (`server.py` lines 235-286).
Checks run in source order: amount positivity, sender balance,
recipient existence, self-send; then both balances are updated and a
completed send record appended.  Returns the sender's new balance. -/
def send_money (db : DB) (callerUid : Nat) (recipient_username : String)
    (amount : Rat) (note : String) (ts : Nat) :
    Except ApiError (DB × Rat) :=
  match findUserById db callerUid with
  | none => .error .unauthorized
  | some current_user =>
    if amount ≤ 0 then .error .invalidAmount
    else if current_user.wallet_balance < amount then .error .insufficientBalance
    else
      match findUserByUsername db recipient_username with
      | none => .error .recipientNotFound
      | some recipient =>
        if recipient.uid = current_user.uid then .error .selfTransfer
        else
          let sender_new_balance := current_user.wallet_balance - amount
          let recipient_new_balance := recipient.wallet_balance + amount
          let users' := setWalletBalance db.users current_user.uid sender_new_balance
          let users'' := setWalletBalance users' recipient.uid recipient_new_balance
          .ok ({ users := users'',
                 transactions := db.transactions ++
                   [mkSendTxn current_user recipient amount note ts] },
               sender_new_balance)

/-- The Mongo history query predicate (`server.py` lines 293-298):
the user is sender or recipient of the record. -/
def involves (uid : Nat) (t : Txn) : Bool :=
  t.from_user == PartyId.user uid || t.to_user == PartyId.user uid

/-- The per-record type shown in history from the viewing user's
perspective (`server.py` lines 302-306). -/
def historyType (uid : Nat) (t : Txn) : String :=
  if t.from_user == PartyId.user uid then
    if t.ty != "topup" then "send" else "topup"
  else "receive"

/-- The `/transaction/history` endpoint (`server.py` lines 288-321):
records involving the caller, sorted by timestamp descending
(`.sort("timestamp", -1)`, modelled as a stable merge sort), truncated
to the first 1000 (`.to_list(1000)`), each re-typed from the caller's
perspective. -/
def get_transaction_history (db : DB) (callerUid : Nat) :
    Except ApiError (List Txn) :=
  match findUserById db callerUid with
  | none => .error .unauthorized
  | some current_user =>
    let txns :=
      (((db.transactions.filter (involves current_user.uid)).mergeSort
          (fun a b => decide (b.timestamp ≤ a.timestamp))).take 1000)
    .ok (txns.map (fun t => { t with ty := historyType current_user.uid t }))

/-- A ledger-mutating request, carrying the wall-clock time at which
it executes. -/
inductive Op
  | topup (callerUid : Nat) (amount : Rat) (ts : Nat)
  | send (callerUid : Nat) (recipient_username : String) (amount : Rat)
      (note : String) (ts : Nat)
  deriving Repr, DecidableEq

/-- Executing one request to completion: a rejected request raises
before any Mongo write, so it leaves the database unchanged. -/
def applyOp (db : DB) : Op → DB
  | .topup c a t =>
    match topup_wallet db c a t with
    | .ok (db', _) => db'
    | .error _ => db
  | .send c r a n t =>
    match send_money db c r a n t with
    | .ok (db', _) => db'
    | .error _ => db

/-- Executing a sequence of requests in order. -/
def runOps (db : DB) (ops : List Op) : DB :=
  ops.foldl applyOp db

/-- Every stored balance is non-negative. -/
def nonNeg (db : DB) : Prop :=
  ∀ u ∈ db.users, 0 ≤ u.wallet_balance

/-- A record with its perspective-dependent `ty` field blanked, used to
compare history entries with ledger records up to re-typing. -/
def eraseTy (t : Txn) : Txn :=
  { t with ty := "" }

/-- Example account: Alice, as provisioned by registration. -/
def alice : User :=
  { uid := 1
    username := "alice"
    password_hash := "h1"
    full_name := "Alice Smith"
    wallet_balance := 1000
    reputation_score := 75
    created_at := 0 }

/-- Example account: Bob, as provisioned by registration. -/
def bob : User :=
  { uid := 2
    username := "bob"
    password_hash := "h2"
    full_name := "Bob Johnson"
    wallet_balance := 1000
    reputation_score := 75
    created_at := 0 }

/-- Example database holding Alice and Bob with no prior activity. -/
def dbAB : DB :=
  { users := [alice, bob], transactions := [] }

/-- Alice with a wallet of 100, for exercising the insufficient-funds
path. -/
def poorAlice : User :=
  { alice with wallet_balance := 100 }

/-- Database holding only `poorAlice`. -/
def dbPoor : DB :=
  { users := [poorAlice], transactions := [] }

/-- A completed top-up record credited to Alice at time 5, amount 1. -/
def tieTxn1 : Txn :=
  { from_user := .system
    from_user_name := "VeloraPay"
    to_user := .user 1
    to_user_name := "Alice Smith"
    amount := 1
    note := "Wallet top-up"
    ty := "topup"
    status := "completed"
    timestamp := 5 }

/-- A second completed top-up record for Alice with the same timestamp
5, amount 2, inserted after `tieTxn1`. -/
def tieTxn2 : Txn :=
  { tieTxn1 with amount := 2 }

/-- Database whose ledger holds two records with equal timestamps, in
insertion order `tieTxn1`, `tieTxn2`. -/
def dbTie : DB :=
  { users := [alice], transactions := [tieTxn1, tieTxn2] }

/-- Database whose ledger holds 1001 records all involving Alice. -/
def dbCap : DB :=
  { users := [alice], transactions := List.replicate 1001 tieTxn1 }

/-- Updating a balance does not change any user's id. -/
lemma uid_setEntry (x : Nat) (v : Rat) (u : User) :
    (if u.uid = x then { u with wallet_balance := v } else u).uid = u.uid := by
  by_cases h : u.uid = x <;> simp [h]

/-- The balance field of one updated entry. -/
lemma bal_setEntry (x : Nat) (v : Rat) (u : User) :
    (if u.uid = x then { u with wallet_balance := v } else u).wallet_balance
      = if u.uid = x then v else u.wallet_balance := by
  by_cases h : u.uid = x <;> simp [h]

/-- Finding by id commutes with a balance update. -/
lemma find?_uid_setWalletBalance (us : List User) (x : Nat) (v : Rat) (y : Nat) :
    (setWalletBalance us x v).find? (fun u => u.uid == y)
      = (us.find? (fun u => u.uid == y)).map
          (fun u => if u.uid = x then { u with wallet_balance := v } else u) := by
  unfold setWalletBalance
  have hpf : ((fun u : User => u.uid == y) ∘ fun u =>
        if u.uid = x then { u with wallet_balance := v } else u)
      = fun u : User => u.uid == y := by
    funext u
    simp only [Function.comp_apply, uid_setEntry]
  rw [List.find?_map, hpf]

/-- Reading a balance after one balance update. -/
lemma balanceOf_mk_set (us : List User) (txs : List Txn) (x : Nat) (v : Rat)
    (y : Nat) :
    balanceOf ⟨setWalletBalance us x v, txs⟩ y
      = (us.find? (fun u => u.uid == y)).map
          (fun u => if u.uid = x then v else u.wallet_balance) := by
  show ((setWalletBalance us x v).find? (fun u => u.uid == y)).map
      (fun u => u.wallet_balance) = _
  rw [find?_uid_setWalletBalance, Option.map_map]
  have hbal : ((fun u : User => u.wallet_balance) ∘ fun u =>
        if u.uid = x then { u with wallet_balance := v } else u)
      = fun u : User => if u.uid = x then v else u.wallet_balance := by
    funext u
    simp only [Function.comp_apply, bal_setEntry]
  rw [hbal]

/-- Reading a balance after two successive balance updates. -/
lemma balanceOf_mk_set₂ (us : List User) (txs : List Txn) (s r : Nat)
    (sv rv : Rat) (y : Nat) :
    balanceOf ⟨setWalletBalance (setWalletBalance us s sv) r rv, txs⟩ y
      = (us.find? (fun u => u.uid == y)).map
          (fun u => if u.uid = r then rv
                    else if u.uid = s then sv else u.wallet_balance) := by
  rw [balanceOf_mk_set, find?_uid_setWalletBalance, Option.map_map]
  have h2 : ((fun u : User => if u.uid = r then rv else u.wallet_balance) ∘ fun u =>
        if u.uid = s then { u with wallet_balance := sv } else u)
      = fun u : User => if u.uid = r then rv
          else if u.uid = s then sv else u.wallet_balance := by
    funext u
    simp only [Function.comp_apply, uid_setEntry, bal_setEntry]
  rw [h2]

/-- In a list of users whose keys are pairwise distinct, searching for a
member's key finds that member. -/
lemma find?_key_self {β : Type} [BEq β] [LawfulBEq β] (key : User → β)
    (us : List User) (u : User) (hnd : (us.map key).Nodup) (hmem : u ∈ us) :
    us.find? (fun w => key w == key u) = some u := by
  induction us with
  | nil => cases hmem
  | cons w ws ih =>
    simp only [List.map_cons, List.nodup_cons] at hnd
    rcases List.mem_cons.mp hmem with rfl | hm
    · simp [List.find?]
    · have hne : (key w == key u) = false := by
        rw [beq_eq_false_iff_ne]
        intro hk
        exact hnd.1 (hk ▸ List.mem_map_of_mem key hm)
      rw [List.find?_cons, hne]
      exact ih hnd.2 hm

/-- A balance update preserves the list of user ids. -/
lemma uidMap_setWalletBalance (us : List User) (x : Nat) (v : Rat) :
    (setWalletBalance us x v).map (·.uid) = us.map (·.uid) := by
  unfold setWalletBalance
  rw [List.map_map]
  apply List.map_congr_left
  intro u _
  exact uid_setEntry x v u

/-- A balance update to a key no user holds is the identity. -/
lemma setWalletBalance_of_no_key (ws : List User) (x : Nat) (v : Rat)
    (h : ∀ u ∈ ws, u.uid ≠ x) : setWalletBalance ws x v = ws := by
  unfold setWalletBalance
  have h' : ∀ u ∈ ws,
      (if u.uid = x then { u with wallet_balance := v } else u) = id u := by
    intro u hu
    simp [h u hu]
  rw [List.map_congr_left h', List.map_id]

/-- Setting a member's balance changes the total of all balances by the
difference, provided user ids are pairwise distinct. -/
lemma sum_balances_setWalletBalance (us : List User) (u : User) (v : Rat)
    (hnd : (us.map (·.uid)).Nodup) (hmem : u ∈ us) :
    ((setWalletBalance us u.uid v).map (·.wallet_balance)).sum
      = (us.map (·.wallet_balance)).sum - u.wallet_balance + v := by
  induction us with
  | nil => cases hmem
  | cons w ws ih =>
    simp only [List.map_cons, List.nodup_cons] at hnd
    have hcons : setWalletBalance (w :: ws) u.uid v
        = (if w.uid = u.uid then { w with wallet_balance := v } else w)
            :: setWalletBalance ws u.uid v := rfl
    rcases List.mem_cons.mp hmem with rfl | hm
    · have hws : setWalletBalance ws u.uid v = ws := by
        apply setWalletBalance_of_no_key
        intro x hx hxe
        exact hnd.1 (hxe ▸ List.mem_map_of_mem _ hx)
      rw [hcons, hws, if_pos rfl]
      simp only [List.map_cons, List.sum_cons]
      ring
    · have hne : w.uid ≠ u.uid := by
        intro hk
        exact hnd.1 (hk ▸ List.mem_map_of_mem _ hm)
      rw [hcons, if_neg hne]
      simp only [List.map_cons, List.sum_cons, ih hnd.2 hm]
      ring

/-- Every element of an updated user list arises from an element of the
original list. -/
lemma mem_setWalletBalance {w : User} {us : List User} {x : Nat} {v : Rat}
    (h : w ∈ setWalletBalance us x v) :
    ∃ u ∈ us, w = if u.uid = x then { u with wallet_balance := v } else u := by
  unfold setWalletBalance at h
  obtain ⟨u, hu, he⟩ := List.mem_map.mp h
  exact ⟨u, hu, he.symm⟩

/-- Anatomy of a successful transfer: the caller and recipient exist,
all four checks pass, both balances are written, one send record is
appended, and the sender's new balance is returned. -/
lemma send_money_ok_destruct {db : DB} {c : Nat} {r : String} {a : Rat}
    {n : String} {t : Nat} {db' : DB} {nb : Rat}
    (h : send_money db c r a n t = .ok (db', nb)) :
    ∃ cu rec, findUserById db c = some cu ∧
      findUserByUsername db r = some rec ∧
      0 < a ∧ a ≤ cu.wallet_balance ∧ rec.uid ≠ cu.uid ∧
      nb = cu.wallet_balance - a ∧
      db' = { users := setWalletBalance (setWalletBalance db.users cu.uid
                (cu.wallet_balance - a)) rec.uid (rec.wallet_balance + a)
              transactions := db.transactions ++ [mkSendTxn cu rec a n t] } := by
  unfold send_money at h
  cases hcu : findUserById db c with
  | none => simp [hcu] at h
  | some cu =>
  simp only [hcu] at h
  by_cases h1 : a ≤ 0
  · simp [h1] at h
  simp only [if_neg h1] at h
  by_cases h2 : cu.wallet_balance < a
  · simp [h2] at h
  simp only [if_neg h2] at h
  cases hrec : findUserByUsername db r with
  | none => simp [hrec] at h
  | some rec =>
  simp only [hrec] at h
  by_cases h3 : rec.uid = cu.uid
  · simp [h3] at h
  simp only [if_neg h3] at h
  simp only [Except.ok.injEq, Prod.mk.injEq] at h
  exact ⟨cu, rec, rfl, rfl, not_le.mp h1, not_lt.mp h2, h3, h.2.symm, h.1.symm⟩

/-- Anatomy of a successful top-up: the caller exists, the amount is
positive, the balance is written, one top-up record is appended, and
the new balance is returned. -/
lemma topup_wallet_ok_destruct {db : DB} {c : Nat} {a : Rat} {t : Nat}
    {db' : DB} {nb : Rat}
    (h : topup_wallet db c a t = .ok (db', nb)) :
    ∃ cu, findUserById db c = some cu ∧ 0 < a ∧
      nb = cu.wallet_balance + a ∧
      db' = { users := setWalletBalance db.users cu.uid (cu.wallet_balance + a)
              transactions := db.transactions ++ [mkTopupTxn cu a t] } := by
  unfold topup_wallet at h
  cases hcu : findUserById db c with
  | none => simp [hcu] at h
  | some cu =>
  simp only [hcu] at h
  by_cases h1 : a ≤ 0
  · simp [h1] at h
  simp only [if_neg h1] at h
  simp only [Except.ok.injEq, Prod.mk.injEq] at h
  exact ⟨cu, rfl, not_le.mp h1, h.2.symm, h.1.symm⟩

/-- A successful transfer leaves the sum of all balances unchanged,
provided user ids are pairwise distinct. -/
lemma totalBalance_send_ok {db : DB} {c : Nat} {r : String} {a : Rat}
    {n : String} {t : Nat} {db' : DB} {nb : Rat}
    (hnd : (db.users.map (·.uid)).Nodup)
    (h : send_money db c r a n t = .ok (db', nb)) :
    totalBalance db' = totalBalance db := by
  obtain ⟨cu, rec, hcu, hrec, -, -, hne, -, hdb⟩ := send_money_ok_destruct h
  have hcmem : cu ∈ db.users := List.mem_of_find?_eq_some hcu
  have hrmem : rec ∈ db.users := List.mem_of_find?_eq_some hrec
  have hrmem' : rec ∈ setWalletBalance db.users cu.uid (cu.wallet_balance - a) := by
    unfold setWalletBalance
    refine List.mem_map.mpr ⟨rec, hrmem, ?_⟩
    exact if_neg hne
  have hnd' : ((setWalletBalance db.users cu.uid
      (cu.wallet_balance - a)).map (·.uid)).Nodup := by
    rw [uidMap_setWalletBalance]; exact hnd
  subst hdb
  unfold totalBalance
  rw [sum_balances_setWalletBalance _ rec _ hnd' hrmem',
    sum_balances_setWalletBalance _ cu _ hnd hcmem]
  ring

/-- A successful top-up raises the sum of all balances by exactly the
amount, provided user ids are pairwise distinct. -/
lemma totalBalance_topup_ok {db : DB} {c : Nat} {a : Rat} {t : Nat}
    {db' : DB} {nb : Rat}
    (hnd : (db.users.map (·.uid)).Nodup)
    (h : topup_wallet db c a t = .ok (db', nb)) :
    totalBalance db' = totalBalance db + a := by
  obtain ⟨cu, hcu, -, -, hdb⟩ := topup_wallet_ok_destruct h
  have hcmem : cu ∈ db.users := List.mem_of_find?_eq_some hcu
  subst hdb
  unfold totalBalance
  rw [sum_balances_setWalletBalance _ cu _ hnd hcmem]
  ring

/-- A rejected transfer leaves the database unchanged (`applyOp`
keeps the pre-state on error). -/
lemma applyOp_send_error {db : DB} {c : Nat} {r : String} {a : Rat}
    {n : String} {t : Nat} {e : ApiError}
    (h : send_money db c r a n t = .error e) :
    applyOp db (.send c r a n t) = db := by
  simp only [applyOp, h]

/-- A rejected top-up leaves the database unchanged. -/
lemma applyOp_topup_error {db : DB} {c : Nat} {a : Rat} {t : Nat}
    {e : ApiError} (h : topup_wallet db c a t = .error e) :
    applyOp db (.topup c a t) = db := by
  simp only [applyOp, h]

/-- A successful transfer makes `applyOp` adopt the post-state. -/
lemma applyOp_send_ok {db : DB} {c : Nat} {r : String} {a : Rat}
    {n : String} {t : Nat} {db' : DB} {nb : Rat}
    (h : send_money db c r a n t = .ok (db', nb)) :
    applyOp db (.send c r a n t) = db' := by
  simp only [applyOp, h]

/-- A successful top-up makes `applyOp` adopt the post-state. -/
lemma applyOp_topup_ok {db : DB} {c : Nat} {a : Rat} {t : Nat}
    {db' : DB} {nb : Rat}
    (h : topup_wallet db c a t = .ok (db', nb)) :
    applyOp db (.topup c a t) = db' := by
  simp only [applyOp, h]

/-- Executing any single request preserves the list of user ids. -/
lemma uidMap_applyOp (db : DB) (op : Op) :
    (applyOp db op).users.map (·.uid) = db.users.map (·.uid) := by
  cases op with
  | topup c a t =>
    cases h : topup_wallet db c a t with
    | error e => rw [applyOp_topup_error h]
    | ok p =>
      obtain ⟨db_post, nb⟩ := p
      obtain ⟨cu, -, -, -, hdb⟩ := topup_wallet_ok_destruct h
      rw [applyOp_topup_ok h, hdb]
      exact uidMap_setWalletBalance _ _ _
  | send c r a n t =>
    cases h : send_money db c r a n t with
    | error e => rw [applyOp_send_error h]
    | ok p =>
      obtain ⟨db_post, nb⟩ := p
      obtain ⟨cu, rec, -, -, -, -, -, -, hdb⟩ := send_money_ok_destruct h
      rw [applyOp_send_ok h, hdb]
      show (setWalletBalance (setWalletBalance db.users cu.uid
          (cu.wallet_balance - a)) rec.uid (rec.wallet_balance + a)).map (·.uid)
        = db.users.map (·.uid)
      rw [uidMap_setWalletBalance, uidMap_setWalletBalance]

/-- Executing one transfer request, accepted or rejected, preserves the
sum of all balances (given pairwise-distinct user ids). -/
lemma totalBalance_applyOp_send (db : DB) (c : Nat) (r : String) (a : Rat)
    (n : String) (t : Nat) (hnd : (db.users.map (·.uid)).Nodup) :
    totalBalance (applyOp db (.send c r a n t)) = totalBalance db := by
  cases h : send_money db c r a n t with
  | error e => rw [applyOp_send_error h]
  | ok p =>
    obtain ⟨db_post, nb⟩ := p
    rw [applyOp_send_ok h]
    exact totalBalance_send_ok hnd h

/-- Running a list of transfer requests preserves the sum of all
balances. -/
lemma totalBalance_runOps_sends (db : DB) (ops : List Op)
    (hnd : (db.users.map (·.uid)).Nodup)
    (hsend : ∀ op ∈ ops, ∃ c r a n t, op = Op.send c r a n t) :
    totalBalance (runOps db ops) = totalBalance db := by
  induction ops generalizing db with
  | nil => rfl
  | cons op ops ih =>
    have hstep : runOps db (op :: ops) = runOps (applyOp db op) ops := rfl
    obtain ⟨c, r, a, n, t, rfl⟩ := hsend op (List.mem_cons_self op ops)
    have hnd' : ((applyOp db (.send c r a n t)).users.map (·.uid)).Nodup := by
      rw [uidMap_applyOp]; exact hnd
    rw [hstep, ih _ hnd' (fun o ho => hsend o (List.mem_cons_of_mem _ ho)),
      totalBalance_applyOp_send db c r a n t hnd]

/-- Balances stay non-negative across one balance update whose new
value is non-negative. -/
lemma nonNeg_users_setWalletBalance {us : List User} {x : Nat} {v : Rat}
    (hv : 0 ≤ v) (hus : ∀ u ∈ us, 0 ≤ u.wallet_balance) :
    ∀ w ∈ setWalletBalance us x v, 0 ≤ w.wallet_balance := by
  intro w hw
  obtain ⟨u, hu, rfl⟩ := mem_setWalletBalance hw
  rw [bal_setEntry]
  by_cases h : u.uid = x
  · rw [if_pos h]; exact hv
  · rw [if_neg h]; exact hus u hu

/-- Executing one request to completion preserves non-negativity of all
balances. -/
lemma nonNeg_applyOp {db : DB} (op : Op) (h : nonNeg db) :
    nonNeg (applyOp db op) := by
  cases op with
  | topup c a t =>
    cases hr : topup_wallet db c a t with
    | error e => rw [applyOp_topup_error hr]; exact h
    | ok p =>
      obtain ⟨db_post, nb⟩ := p
      obtain ⟨cu, hcu, ha, -, hdb⟩ := topup_wallet_ok_destruct hr
      have hcmem : cu ∈ db.users := List.mem_of_find?_eq_some hcu
      rw [applyOp_topup_ok hr, hdb]
      intro u hu
      exact nonNeg_users_setWalletBalance
        (by have := h cu hcmem; linarith) h u hu
  | send c r a n t =>
    cases hr : send_money db c r a n t with
    | error e => rw [applyOp_send_error hr]; exact h
    | ok p =>
      obtain ⟨db_post, nb⟩ := p
      obtain ⟨cu, rec, hcu, hrec, ha, hle, -, -, hdb⟩ := send_money_ok_destruct hr
      have hrmem : rec ∈ db.users := List.mem_of_find?_eq_some hrec
      rw [applyOp_send_ok hr, hdb]
      intro u hu
      refine nonNeg_users_setWalletBalance
        (by have := h rec hrmem; linarith)
        (nonNeg_users_setWalletBalance (by linarith) h) u hu

/-- Running any request sequence preserves non-negativity of all
balances. -/
lemma nonNeg_runOps {db : DB} (ops : List Op) (h : nonNeg db) :
    nonNeg (runOps db ops) := by
  induction ops generalizing db with
  | nil => exact h
  | cons op ops ih => exact ih (nonNeg_applyOp op h)

/-- C1: conservation law.  Every successful transfer of amount `a`
lowers the sender's balance by exactly `a`, raises the recipient's by
exactly `a`, and changes no other balance, leaving the sum of balances
unchanged; every successful top-up of amount `a` raises exactly the
recipient's balance by `a` (no other balance changes, the sum rises by
`a`, so there is no corresponding decrease anywhere); and any sequence
of transfer requests with no top-ups leaves the sum of all account
balances unchanged.  User ids are assumed pairwise distinct, as Mongo
primary keys are. -/
theorem C1_conservation :
    (∀ (db : DB) (c : Nat) (r : String) (a : Rat) (n : String) (t : Nat)
        (db' : DB) (nb : Rat),
      (db.users.map (·.uid)).Nodup →
      send_money db c r a n t = .ok (db', nb) →
      ∃ cu rec, findUserById db c = some cu ∧
        findUserByUsername db r = some rec ∧ rec.uid ≠ cu.uid ∧
        balanceOf db' cu.uid = some (cu.wallet_balance - a) ∧
        balanceOf db' rec.uid = some (rec.wallet_balance + a) ∧
        (∀ z, z ≠ cu.uid → z ≠ rec.uid → balanceOf db' z = balanceOf db z) ∧
        totalBalance db' = totalBalance db) ∧
    (∀ (db : DB) (c : Nat) (a : Rat) (t : Nat) (db' : DB) (nb : Rat),
      (db.users.map (·.uid)).Nodup →
      topup_wallet db c a t = .ok (db', nb) →
      ∃ cu, findUserById db c = some cu ∧
        balanceOf db' cu.uid = some (cu.wallet_balance + a) ∧
        (∀ z, z ≠ cu.uid → balanceOf db' z = balanceOf db z) ∧
        totalBalance db' = totalBalance db + a) ∧
    (∀ (db : DB) (ops : List Op),
      (db.users.map (·.uid)).Nodup →
      (∀ op ∈ ops, ∃ c r a n t, op = Op.send c r a n t) →
      totalBalance (runOps db ops) = totalBalance db) := by
  refine ⟨?_, ?_, ?_⟩
  · intro db c r a n t db' nb hnd h
    obtain ⟨cu, rec, hcu, hrec, ha, hle, hne, hnb, hdb⟩ := send_money_ok_destruct h
    have hcu' : db.users.find? (fun u => u.uid == c) = some cu := hcu
    have hcuid : cu.uid = c := by simpa using List.find?_some hcu'
    have hrmem : rec ∈ db.users := List.mem_of_find?_eq_some hrec
    have htot : totalBalance db' = totalBalance db := totalBalance_send_ok hnd h
    subst hdb
    refine ⟨cu, rec, hcu, hrec, hne, ?_, ?_, ?_, htot⟩
    · rw [balanceOf_mk_set₂]
      have hfind : db.users.find? (fun u => u.uid == cu.uid) = some cu := by
        rw [hcuid]; exact hcu'
      rw [hfind]
      simp [Ne.symm hne]
    · rw [balanceOf_mk_set₂]
      have hfind : db.users.find? (fun u => u.uid == rec.uid) = some rec :=
        find?_key_self (fun u => u.uid) db.users rec hnd hrmem
      rw [hfind]
      simp
    · intro z hzc hzr
      rw [balanceOf_mk_set₂]
      show _ = (db.users.find? (fun u => u.uid == z)).map (fun u => u.wallet_balance)
      cases hf : db.users.find? (fun u => u.uid == z) with
      | none => rfl
      | some u =>
        have huid : u.uid = z := by simpa using List.find?_some hf
        simp only [Option.map_some']
        rw [if_neg (huid ▸ hzr), if_neg (huid ▸ hzc)]
  · intro db c a t db' nb hnd h
    obtain ⟨cu, hcu, ha, hnb, hdb⟩ := topup_wallet_ok_destruct h
    have hcu' : db.users.find? (fun u => u.uid == c) = some cu := hcu
    have hcuid : cu.uid = c := by simpa using List.find?_some hcu'
    have htot : totalBalance db' = totalBalance db + a := totalBalance_topup_ok hnd h
    subst hdb
    refine ⟨cu, hcu, ?_, ?_, htot⟩
    · rw [balanceOf_mk_set]
      have hfind : db.users.find? (fun u => u.uid == cu.uid) = some cu := by
        rw [hcuid]; exact hcu'
      rw [hfind]
      simp
    · intro z hzc
      rw [balanceOf_mk_set]
      show _ = (db.users.find? (fun u => u.uid == z)).map (fun u => u.wallet_balance)
      cases hf : db.users.find? (fun u => u.uid == z) with
      | none => rfl
      | some u =>
        have huid : u.uid = z := by simpa using List.find?_some hf
        simp only [Option.map_some']
        rw [if_neg (huid ▸ hzc)]
  · intro db ops hnd hsend
    exact totalBalance_runOps_sends db ops hnd hsend

/-- C1 witness: a concrete transfer-only sequence from the two-user
database conserves the total balance. -/
theorem C1_conservation_witness :
    totalBalance (runOps dbAB [Op.send 1 "bob" 200 "lunch" 3]) = totalBalance dbAB :=
  C1_conservation.2.2 dbAB [Op.send 1 "bob" 200 "lunch" 3] (by decide)
    (by
      intro op hop
      rw [List.mem_singleton] at hop
      exact ⟨1, "bob", 200, "lunch", 3, hop⟩)

/-- C2: non-negativity.  From a state where every balance is ≥ 0, any
sequence of top-up and transfer requests run to completion keeps every
balance ≥ 0; in particular a transfer whose amount exceeds the sender's
balance is rejected with InsufficientFunds and changes nothing. -/
theorem C2_nonneg :
    (∀ (db : DB) (ops : List Op), nonNeg db → nonNeg (runOps db ops)) ∧
    (∀ (db : DB) (c : Nat) (r : String) (a : Rat) (n : String) (t : Nat)
        (cu : User),
      nonNeg db → findUserById db c = some cu → cu.wallet_balance < a →
      send_money db c r a n t = .error .insufficientBalance ∧
      applyOp db (.send c r a n t) = db) := by
  refine ⟨fun db ops h => nonNeg_runOps ops h, ?_⟩
  intro db c r a n t cu hnn hcu hlt
  have hmem : cu ∈ db.users := List.mem_of_find?_eq_some hcu
  have hpos : ¬ a ≤ 0 := by
    have := hnn cu hmem
    push_neg
    linarith
  have herr : send_money db c r a n t = .error .insufficientBalance := by
    unfold send_money
    simp only [hcu, if_neg hpos, if_pos hlt]
  exact ⟨herr, applyOp_send_error herr⟩

/-- C2 witness: with a balance of 100, sending 500 is rejected with
InsufficientFunds and leaves the database unchanged. -/
theorem C2_nonneg_witness :
    send_money dbPoor 1 "bob" 500 "" 0 = .error .insufficientBalance ∧
    applyOp dbPoor (.send 1 "bob" 500 "" 0) = dbPoor :=
  C2_nonneg.2 dbPoor 1 "bob" 500 "" 0 poorAlice
    (by
      show ∀ u ∈ dbPoor.users, 0 ≤ u.wallet_balance
      decide)
    (by decide) (by decide)

/-- C3 counterexample: with the recipient missing and the balance
insufficient at the same time, the code reports InsufficientFunds,
whereas the claimed precedence (amount, then recipient, then self, then
balance) requires RecipientNotFound. -/
theorem C3_error_precedence_cex :
    send_money dbPoor 1 "ghost" 500 "" 0 = .error .insufficientBalance ∧
    findUserByUsername dbPoor "ghost" = none ∧
    ApiError.insufficientBalance ≠ ApiError.recipientNotFound :=
  ⟨rfl, rfl, by decide⟩

/-- C3 (amended): the error of a rejected transfer is the first failing
check in source order: amount validity first, then balance sufficiency,
then recipient existence, then self-transfer. -/
theorem C3_error_precedence :
    ∀ (db : DB) (c : Nat) (uname : String) (a : Rat) (n : String) (t : Nat)
      (cu : User), findUserById db c = some cu →
      ((a ≤ 0 → send_money db c uname a n t = .error .invalidAmount) ∧
       (0 < a → cu.wallet_balance < a →
         send_money db c uname a n t = .error .insufficientBalance) ∧
       (0 < a → a ≤ cu.wallet_balance → findUserByUsername db uname = none →
         send_money db c uname a n t = .error .recipientNotFound) ∧
       (∀ rec, 0 < a → a ≤ cu.wallet_balance →
         findUserByUsername db uname = some rec → rec.uid = cu.uid →
         send_money db c uname a n t = .error .selfTransfer)) := by
  intro db c uname a n t cu hcu
  refine ⟨?_, ?_, ?_, ?_⟩
  · intro h1
    unfold send_money
    simp only [hcu, if_pos h1]
  · intro h1 h2
    unfold send_money
    simp only [hcu, if_neg (not_le.mpr h1), if_pos h2]
  · intro h1 h2 h3
    unfold send_money
    simp only [hcu, if_neg (not_le.mpr h1), if_neg (not_lt.mpr h2), h3]
  · intro rec h1 h2 hrec heq
    unfold send_money
    simp only [hcu, if_neg (not_le.mpr h1), if_neg (not_lt.mpr h2), hrec,
      if_pos heq]

/-- C3 witness: each of the four first-failing-check cases observed on
concrete inputs. -/
theorem C3_error_precedence_witness :
    send_money dbPoor 1 "ghost" 0 "" 0 = .error .invalidAmount ∧
    send_money dbPoor 1 "ghost" 500 "" 0 = .error .insufficientBalance ∧
    send_money dbPoor 1 "ghost" 50 "" 0 = .error .recipientNotFound ∧
    send_money dbPoor 1 "alice" 50 "" 0 = .error .selfTransfer :=
  ⟨(C3_error_precedence dbPoor 1 "ghost" 0 "" 0 poorAlice (by decide)).1
      (by decide),
   (C3_error_precedence dbPoor 1 "ghost" 500 "" 0 poorAlice (by decide)).2.1
      (by decide) (by decide),
   (C3_error_precedence dbPoor 1 "ghost" 50 "" 0 poorAlice (by decide)).2.2.1
      (by decide) (by decide) (by decide),
   (C3_error_precedence dbPoor 1 "alice" 50 "" 0 poorAlice (by decide)).2.2.2
      poorAlice (by decide) (by decide) (by decide) (by decide)⟩

/-- C5: every rejected transfer or top-up leaves the database (balances
and ledger) exactly as it was, and re-submitting the same request
against the resulting state fails with the identical error. -/
theorem C5_rejection_atomic :
    (∀ (db : DB) (c : Nat) (r : String) (a : Rat) (n : String) (t : Nat)
        (e : ApiError),
      send_money db c r a n t = .error e →
      applyOp db (.send c r a n t) = db ∧
      send_money (applyOp db (.send c r a n t)) c r a n t = .error e) ∧
    (∀ (db : DB) (c : Nat) (a : Rat) (t : Nat) (e : ApiError),
      topup_wallet db c a t = .error e →
      applyOp db (.topup c a t) = db ∧
      topup_wallet (applyOp db (.topup c a t)) c a t = .error e) := by
  constructor
  · intro db c r a n t e h
    have h0 := applyOp_send_error h
    exact ⟨h0, by rw [h0]; exact h⟩
  · intro db c a t e h
    have h0 := applyOp_topup_error h
    exact ⟨h0, by rw [h0]; exact h⟩

/-- C5 witness: a rejected self-transfer leaves the two-user database
unchanged and fails identically when re-submitted. -/
theorem C5_rejection_atomic_witness :
    applyOp dbAB (.send 1 "alice" 50 "" 0) = dbAB ∧
    send_money (applyOp dbAB (.send 1 "alice" 50 "" 0)) 1 "alice" 50 "" 0
      = .error .selfTransfer :=
  C5_rejection_atomic.1 dbAB 1 "alice" 50 "" 0 .selfTransfer rfl

/-- C6 (amended): history returns records in which the caller is sender
or recipient, ordered by timestamp descending, truncated to the first
1000; whenever at most 1000 records match it is exactly those records
up to the perspective re-typing (a permutation of them).  Ties keep the
model's stable-sort order (insertion order), not reversed insertion
order. -/
theorem C6_history_order :
    ∀ (db : DB) (c : Nat) (cu : User), findUserById db c = some cu →
      ∃ l, get_transaction_history db c = .ok l ∧
        l.length = min 1000 (db.transactions.filter (involves cu.uid)).length ∧
        l.Pairwise (fun x y => y.timestamp ≤ x.timestamp) ∧
        ((db.transactions.filter (involves cu.uid)).length ≤ 1000 →
          List.Perm (l.map eraseTy)
            ((db.transactions.filter (involves cu.uid)).map eraseTy)) := by
  intro db c cu hcu
  have hok : get_transaction_history db c = .ok
      ((((db.transactions.filter (involves cu.uid)).mergeSort
          (fun a b => decide (b.timestamp ≤ a.timestamp))).take 1000).map
        (fun t => { t with ty := historyType cu.uid t })) := by
    unfold get_transaction_history
    simp only [hcu]
  refine ⟨_, hok, ?_, ?_, ?_⟩
  · rw [List.length_map, List.length_take, List.length_mergeSort]
  · have htrans : ∀ (a b c : Txn), decide (b.timestamp ≤ a.timestamp) = true →
        decide (c.timestamp ≤ b.timestamp) = true →
        decide (c.timestamp ≤ a.timestamp) = true := by
      intro a b c hab hbc
      simp only [decide_eq_true_eq] at hab hbc ⊢
      exact le_trans hbc hab
    have htot : ∀ (a b : Txn),
        (decide (b.timestamp ≤ a.timestamp)
          || decide (a.timestamp ≤ b.timestamp)) = true := by
      intro a b
      simp only [Bool.or_eq_true, decide_eq_true_eq]
      exact Nat.le_total _ _
    have hs : ((db.transactions.filter (involves cu.uid)).mergeSort
        (fun a b => decide (b.timestamp ≤ a.timestamp))).Pairwise
          (fun a b => decide (b.timestamp ≤ a.timestamp) = true) :=
      List.sorted_mergeSort htrans htot _
    have hst := List.Pairwise.sublist (List.take_sublist 1000 _) hs
    rw [List.pairwise_map]
    exact hst.imp (fun h => of_decide_eq_true h)
  · intro hlen
    have htk : ((db.transactions.filter (involves cu.uid)).mergeSort
        (fun a b => decide (b.timestamp ≤ a.timestamp))).take 1000
        = (db.transactions.filter (involves cu.uid)).mergeSort
            (fun a b => decide (b.timestamp ≤ a.timestamp)) := by
      apply List.take_of_length_le
      rw [List.length_mergeSort]
      exact hlen
    rw [htk]
    have hmapmap : (((db.transactions.filter (involves cu.uid)).mergeSort
        (fun a b => decide (b.timestamp ≤ a.timestamp))).map
          (fun t => { t with ty := historyType cu.uid t })).map eraseTy
        = ((db.transactions.filter (involves cu.uid)).mergeSort
            (fun a b => decide (b.timestamp ≤ a.timestamp))).map eraseTy := by
      rw [List.map_map]
      rfl
    rw [hmapmap]
    exact (List.mergeSort_perm _ _).map eraseTy

/-- C6 counterexample: two same-timestamp records come back in
insertion order (amounts [1, 2]), not the claimed reversed insertion
order, and a ledger of 1001 matching records loses one: exactly 1000
entries are returned, so the result is not exactly the set of matching
records. -/
theorem C6_history_order_cex :
    (get_transaction_history dbTie 1).toOption.map (List.map (fun t => t.amount))
      = some [1, 2] ∧
    ([1, 2] : List Rat) ≠ [2, 1] ∧
    (get_transaction_history dbCap 1).toOption.map List.length = some 1000 ∧
    dbCap.transactions.length = 1001 ∧
    dbCap.transactions.filter (involves 1) = dbCap.transactions := by
  have hfil : dbCap.transactions.filter (involves 1) = dbCap.transactions := by
    apply List.filter_eq_self.mpr
    intro t ht
    have he : t = tieTxn1 := List.eq_of_mem_replicate ht
    rw [he]
    decide
  have hsorted : ([tieTxn1, tieTxn2] : List Txn).Pairwise
      (fun a b => decide (b.timestamp ≤ a.timestamp) = true) := by
    decide
  have hms : ([tieTxn1, tieTxn2] : List Txn).mergeSort
      (fun a b => decide (b.timestamp ≤ a.timestamp)) = [tieTxn1, tieTxn2] :=
    List.mergeSort_of_sorted hsorted
  have h1 : get_transaction_history dbTie 1 = .ok
      (([tieTxn1, tieTxn2] : List Txn).map
        (fun t => { t with ty := historyType 1 t })) := by
    have hfu : findUserById dbTie 1 = some alice := rfl
    unfold get_transaction_history
    simp only [hfu]
    rw [show dbTie.transactions.filter (involves alice.uid) = [tieTxn1, tieTxn2]
      from rfl, hms]
    rfl
  refine ⟨?_, by decide, ?_, ?_, hfil⟩
  · rw [h1]
    rfl
  · have hok : get_transaction_history dbCap 1 = .ok
        ((((dbCap.transactions.filter (involves alice.uid)).mergeSort
            (fun a b => decide (b.timestamp ≤ a.timestamp))).take 1000).map
          (fun t => { t with ty := historyType alice.uid t })) := by
      have hfu : findUserById dbCap 1 = some alice := rfl
      unfold get_transaction_history
      simp only [hfu]
    rw [hok]
    show some (List.length _) = some 1000
    rw [Option.some.injEq, List.length_map, List.length_take,
      List.length_mergeSort]
    rw [show (involves alice.uid) = (involves 1) from rfl, hfil]
    show min 1000 (List.replicate 1001 tieTxn1).length = 1000
    rw [List.length_replicate]
    decide
  · show (List.replicate 1001 tieTxn1).length = 1001
    rw [List.length_replicate]

/-- C6 witness: on the two-record tie database the theorem yields a
history of length 2. -/
theorem C6_history_order_witness :
    (get_transaction_history dbTie 1).toOption.map List.length = some 2 := by
  obtain ⟨l, hl, hlen, -, -⟩ := C6_history_order dbTie 1 alice (by decide)
  rw [hl]
  show some l.length = some 2
  rw [hlen]
  rfl

/-- C7 counterexample: a self-transfer of amount 0 fails with
InvalidAmount, not the SelfTransfer the claim requires for every
amount. -/
theorem C7_self_transfer_cex :
    send_money dbAB 1 "alice" 0 "" 0 = .error .invalidAmount ∧
    findUserById dbAB 1 = some alice ∧ alice.username = "alice" ∧
    ApiError.invalidAmount ≠ ApiError.selfTransfer :=
  ⟨rfl, by decide, by decide, by decide⟩

/-- C7 (amended): a transfer to the caller's own username never
succeeds; it fails with SelfTransfer exactly when the earlier checks
pass (0 < amount ≤ balance), with InvalidAmount when amount ≤ 0, and
with InsufficientFunds when the amount exceeds the balance. -/
theorem C7_self_transfer :
    ∀ (db : DB) (c : Nat) (a : Rat) (n : String) (t : Nat) (cu : User),
      findUserById db c = some cu →
      findUserByUsername db cu.username = some cu →
      ((a ≤ 0 → send_money db c cu.username a n t = .error .invalidAmount) ∧
       (0 < a → cu.wallet_balance < a →
          send_money db c cu.username a n t = .error .insufficientBalance) ∧
       (0 < a → a ≤ cu.wallet_balance →
          send_money db c cu.username a n t = .error .selfTransfer) ∧
       (∀ db' nb, send_money db c cu.username a n t ≠ .ok (db', nb))) := by
  intro db c a n t cu hcu hself
  refine ⟨?_, ?_, ?_, ?_⟩
  · intro h1
    unfold send_money
    simp only [hcu, if_pos h1]
  · intro h1 h2
    unfold send_money
    simp only [hcu, if_neg (not_le.mpr h1), if_pos h2]
  · intro h1 h2
    unfold send_money
    simp only [hcu, if_neg (not_le.mpr h1), if_neg (not_lt.mpr h2), hself]
    simp
  · intro db' nb hok
    obtain ⟨cu', rec, hcu', hrec', -, -, hne, -, -⟩ := send_money_ok_destruct hok
    rw [hcu] at hcu'
    rw [hself] at hrec'
    cases hcu'
    cases hrec'
    exact hne rfl

/-- C7 witness: the three rejection cases observed for Alice sending to
her own username. -/
theorem C7_self_transfer_witness :
    send_money dbAB 1 "alice" 50 "" 0 = .error .selfTransfer ∧
    send_money dbAB 1 "alice" 0 "" 0 = .error .invalidAmount ∧
    send_money dbAB 1 "alice" 5000 "" 0 = .error .insufficientBalance :=
  ⟨(C7_self_transfer dbAB 1 50 "" 0 alice (by decide) (by decide)).2.2.1
      (by decide) (by decide),
   (C7_self_transfer dbAB 1 0 "" 0 alice (by decide) (by decide)).1 (by decide),
   (C7_self_transfer dbAB 1 5000 "" 0 alice (by decide) (by decide)).2.1
      (by decide) (by decide)⟩

/-- C4: the code classifies a user's own top-up record in history as
"receive": a top-up's sender is the "system" sentinel, which never
equals the viewer's id, so the "topup" branch of the perspective logic
is unreachable for the topped-up account.  The repository's own test
suite (backend_test.py, "User1 has top-up transaction") and the spec
expect "topup"/"topped-up" here. -/
theorem C4_topup_history_receive :
    (get_transaction_history (applyOp dbAB (.topup 1 500 0)) 1).toOption.map
        (List.map (fun t => t.ty)) = some ["receive"] ∧
    "receive" ≠ "topup" := by
  constructor
  · have hfu0 : findUserById dbAB 1 = some alice := rfl
    have h : topup_wallet dbAB 1 500 0 = .ok
        ({ users := setWalletBalance dbAB.users alice.uid
              (alice.wallet_balance + 500)
           transactions := dbAB.transactions ++ [mkTopupTxn alice 500 0] },
         alice.wallet_balance + 500) := by
      unfold topup_wallet
      simp only [hfu0, if_neg (by norm_num : ¬ (500 : Rat) ≤ 0)]
    rw [applyOp_topup_ok h]
    have hfu : findUserById
        { users := setWalletBalance dbAB.users alice.uid
            (alice.wallet_balance + 500)
          transactions := dbAB.transactions ++ [mkTopupTxn alice 500 0] } 1
        = some { alice with wallet_balance := alice.wallet_balance + 500 } := rfl
    unfold get_transaction_history
    simp only [hfu]
    rw [show ((dbAB.transactions ++ [mkTopupTxn alice 500 0]).filter
        (involves ({ alice with
          wallet_balance := alice.wallet_balance + 500 } : User).uid))
        = [mkTopupTxn alice 500 0] from rfl]
    rw [List.mergeSort_singleton]
    rfl
  · decide

/-- C8: a top-up is rejected with InvalidAmount exactly when the amount
is non-positive; otherwise it adds the amount to the stored balance,
appends exactly one completed top-up record with the system sentinel as
sender and the account as recipient, and returns the new balance. -/
theorem C8_topup :
    ∀ (db : DB) (c : Nat) (a : Rat) (t : Nat) (cu : User),
      findUserById db c = some cu →
      ((a ≤ 0 → topup_wallet db c a t = .error .invalidAmount) ∧
       (0 < a → ∃ db',
          topup_wallet db c a t = .ok (db', cu.wallet_balance + a) ∧
          balanceOf db c = some cu.wallet_balance ∧
          balanceOf db' c = some (cu.wallet_balance + a) ∧
          ∃ rec, db'.transactions = db.transactions ++ [rec] ∧
            rec.from_user = PartyId.system ∧ rec.to_user = PartyId.user cu.uid ∧
            rec.amount = a ∧ rec.ty = "topup" ∧ rec.status = "completed")) := by
  intro db c a t cu hcu
  constructor
  · intro h1
    unfold topup_wallet
    simp only [hcu, if_pos h1]
  · intro h1
    have hok : topup_wallet db c a t = .ok
        ({ users := setWalletBalance db.users cu.uid (cu.wallet_balance + a)
           transactions := db.transactions ++ [mkTopupTxn cu a t] },
         cu.wallet_balance + a) := by
      unfold topup_wallet
      simp only [hcu, if_neg (not_le.mpr h1)]
    refine ⟨_, hok, ?_, ?_, mkTopupTxn cu a t, rfl, rfl, rfl, rfl, rfl, rfl⟩
    · unfold balanceOf
      rw [hcu]
      rfl
    · have hcu' : db.users.find? (fun u => u.uid == c) = some cu := hcu
      have hcuid : cu.uid = c := by simpa using List.find?_some hcu'
      rw [balanceOf_mk_set, hcu']
      simp [hcuid]

/-- C8 witness: a zero top-up is rejected and a 500 top-up returns
balance 1500 from a 1000 start. -/
theorem C8_topup_witness :
    topup_wallet dbAB 1 0 7 = .error .invalidAmount ∧
    (topup_wallet dbAB 1 500 7).toOption.map (fun p => p.2) = some 1500 := by
  refine ⟨(C8_topup dbAB 1 0 7 alice (by decide)).1 (by decide), ?_⟩
  obtain ⟨db', hok, -, -, -⟩ := (C8_topup dbAB 1 500 7 alice (by decide)).2
    (by decide)
  rw [hok]
  show some (alice.wallet_balance + 500) = some 1500
  norm_num [alice]

/-- C10: registration provisions every new account with a starting
balance of exactly 1000 and a reputation score of exactly 75, and is
rejected with no account created whenever the username is already
taken. -/
theorem C10_register :
    ∀ (db : DB) (username pwd full : String) (uid ts : Nat),
      ((∀ u, findUserByUsername db username = some u →
         register db username pwd full uid ts = .error .usernameExists) ∧
       (findUserByUsername db username = none →
         ∃ u, register db username pwd full uid ts
             = .ok ({ db with users := db.users ++ [u] }, u) ∧
           u.wallet_balance = 1000 ∧ u.reputation_score = 75 ∧
           u.username = username ∧ u.uid = uid)) := by
  intro db username pwd full uid ts
  constructor
  · intro u hu
    unfold register
    simp only [hu]
  · intro hn
    unfold register
    simp only [hn]
    exact ⟨_, rfl, rfl, rfl, rfl, rfl⟩

/-- C10 witness: re-registering "alice" fails, and registering a fresh
username yields balance 1000 and reputation 75. -/
theorem C10_register_witness :
    register dbAB "alice" "h9" "Second Alice" 9 0 = .error .usernameExists ∧
    (register dbAB "carol" "h3" "Carol Jones" 3 0).toOption.map
        (fun p => (p.2.wallet_balance, p.2.reputation_score))
      = some ((1000 : Rat), (75 : Rat)) := by
  refine ⟨(C10_register dbAB "alice" "h9" "Second Alice" 9 0).1 alice
    (by decide), ?_⟩
  obtain ⟨u, hok, hb, hr, -, -⟩ :=
    (C10_register dbAB "carol" "h3" "Carol Jones" 3 0).2 (by decide)
  rw [hok]
  show some (u.wallet_balance, u.reputation_score) = some (1000, 75)
  rw [hb, hr]
